import Mathlib

/-
Shallow embedding of `src/python/cueBeamCore.py` (class `CueBeamSolver`).

The Python module computes a complex acoustic pressure field on a regular
rectangular sampling plane (`RxPlane`) from a list of point transmitters
(`TxElement`) and an environment wavenumber, by superposition of spherical
wavelets (`beamsim`).

Modelling choices:
* Python floats are embedded as real numbers `ℝ`; complex buffer cells as `ℂ`.
* The numpy 2-D buffer `pressurefield` is a `List (List ℂ)` indexed
  `[iy][iz]`; `numpy.zeros((ny, nz))` is `zerosField`.
* The `for` loops of `beamsim` become structural recursion (`accumulate` for
  the transmitter loop, `writeColumn`/`writeGrid` for the `iy`/`iz` loops),
  preserving iteration order and in-place cell writes.
* `RxPlane.__init__` validation (raising `AttributeError`) is embedded as
  `Except String RxPlane`, with the source's messages and check order.
-/

namespace CueBeam

/-- Transmitter element: position, amplitude, phase (source lines 19-31). -/
structure TxElement where
  x : ℝ
  y : ℝ
  z : ℝ
  amplitude : ℝ
  phase : ℝ

/-- Rectangular XZ sampling plane with its pressure buffer (source lines 44-55). -/
structure RxPlane where
  x0 : ℝ
  y0 : ℝ
  z0 : ℝ
  dx : ℝ
  dy : ℝ
  dz : ℝ
  nx : ℤ
  ny : ℤ
  nz : ℤ
  pressurefield : List (List ℂ)

/-- Embedding of `numpy.zeros((ny, nz), numpy.complex)`. -/
noncomputable def zerosField (ny nz : ℤ) : List (List ℂ) :=
  List.replicate ny.toNat (List.replicate nz.toNat 0)

/-- Embedding of `RxPlane.clear_pressurefield` (source lines 77-78). -/
noncomputable def RxPlane.clear_pressurefield (p : RxPlane) : RxPlane :=
  { p with pressurefield := zerosField p.ny p.nz }

/-- Embedding of `RxPlane.__init__` (source lines 57-72): validates `nx`,
`ny`, `nz` in that order, raising `AttributeError` with the source's message
strings, then allocates the zero buffer. -/
noncomputable def RxPlane.init (x0 y0 z0 dx dy dz : ℝ) (nx ny nz : ℤ) :
    Except String RxPlane :=
  if nx ≠ 1 then Except.error "nx must be 1: "
  else if 4096 < ny ∨ ny < 1 then
    Except.error "ny must have a sensible value between 1 an 4096"
  else if 4096 < nz ∨ nz < 1 then
    Except.error "nz must have a sensible value between 1 and 4096"
  else Except.ok ⟨x0, y0, z0, dx, dy, dz, nx, ny, nz, zerosField ny nz⟩

/-- Embedding of `RxPlane.verify_plane_endpoints` (source lines 74-75). -/
def RxPlane.verify_plane_endpoints (p : RxPlane) : List ℝ :=
  [p.x0 + (p.nx : ℝ) * p.dx, p.y0 + (p.ny : ℝ) * p.dy, p.z0 + (p.nz : ℝ) * p.dz]

/-- Euclidean distance from sample point `(px, py, pz)` to transmitter `e`
(source lines 95-98). -/
noncomputable def distanceTo (px py pz : ℝ) (e : TxElement) : ℝ :=
  Real.sqrt ((px - e.x) * (px - e.x) + (py - e.y) * (py - e.y) +
    (pz - e.z) * (pz - e.z))

/-- The transmitter loop of `beamsim` (source lines 94-102): accumulates
`pressure_re` and `pressure_im` over the element list, in order. -/
noncomputable def accumulate (wavenumber px py pz : ℝ) :
    List TxElement → ℝ × ℝ → ℝ × ℝ
  | [], acc => acc
  | e :: rest, acc =>
    let distance := distanceTo px py pz e
    let kphase := -wavenumber * distance + e.phase
    let kamplitude := e.amplitude / (2 * 3.14159 * distance)
    accumulate wavenumber px py pz rest
      (acc.1 + Real.cos kphase * kamplitude, acc.2 + Real.sin kphase * kamplitude)

/-- The complex pressure written to one cell: `pressure_re + 1.0j * pressure_im`
(source line 104) with accumulators started at `0.0` (source lines 89-90). -/
noncomputable def pressureAt (wavenumber : ℝ) (elements : List TxElement)
    (px py pz : ℝ) : ℂ :=
  let acc := accumulate wavenumber px py pz elements (0, 0)
  Complex.ofReal acc.1 + Complex.I * Complex.ofReal acc.2

/-- Single in-place write `pressurefield[(iy, iz)] = v`. -/
def writeCell (buf : List (List ℂ)) (iy iz : ℕ) (v : ℂ) : List (List ℂ) :=
  buf.set iy ((buf.getD iy []).set iz v)

/-- The inner `for iy in range(ny)` loop of `beamsim` at a fixed column `iz`:
`writeColumn v iz n buf` performs the writes for `iy = 0, …, n-1` in order. -/
def writeColumn (v : ℕ → ℂ) (iz : ℕ) : ℕ → List (List ℂ) → List (List ℂ)
  | 0, buf => buf
  | n + 1, buf => writeCell (writeColumn v iz n buf) n iz (v n)

/-- The outer `for iz in range(nz)` loop of `beamsim`:
`writeGrid v ny n buf` runs the column pass for `iz = 0, …, n-1` in order. -/
def writeGrid (v : ℕ → ℕ → ℂ) (ny : ℕ) : ℕ → List (List ℂ) → List (List ℂ)
  | 0, buf => buf
  | n + 1, buf => writeColumn (fun iy => v iy n) n ny (writeGrid v ny n buf)

/-- Embedding of `CueBeamSolver.beamsim` (source lines 82-104): with `ix = 0`,
for every `iz` and `iy` the cell `(iy, iz)` is overwritten with the pressure at
sample point `(x0 + 0*dx, y0 + iy*dy, z0 + iz*dz)`. -/
noncomputable def beamsimField (wavenumber : ℝ) (elements : List TxElement)
    (p : RxPlane) : List (List ℂ) :=
  writeGrid
    (fun iy iz =>
      pressureAt wavenumber elements
        (p.x0 + 0 * p.dx) (p.y0 + (iy : ℝ) * p.dy) (p.z0 + (iz : ℝ) * p.dz))
    p.ny.toNat p.nz.toNat p.pressurefield

/-- The solver as a state transformer on the plane: only `pressurefield`
is replaced. -/
noncomputable def beamsim (wavenumber : ℝ) (elements : List TxElement)
    (p : RxPlane) : RxPlane :=
  { p with pressurefield := beamsimField wavenumber elements p }

/-- Read accessor for buffer cell `[iy][iz]` (defaulting to `0` out of range). -/
def getCell (buf : List (List ℂ)) (iy iz : ℕ) : ℂ :=
  (buf.getD iy []).getD iz 0

/-- The value `beamsim` computes for cell `(iy, iz)` of plane `p`. -/
noncomputable def cellValue (wavenumber : ℝ) (elements : List TxElement)
    (p : RxPlane) (iy iz : ℕ) : ℂ :=
  pressureAt wavenumber elements
    (p.x0 + 0 * p.dx) (p.y0 + (iy : ℝ) * p.dy) (p.z0 + (iz : ℝ) * p.dz)

/-- Shape predicate: `buf` has exactly `ny` rows, each of length `nz`. -/
def bufShape (buf : List (List ℂ)) (ny nz : ℕ) : Prop :=
  buf.length = ny ∧ ∀ row ∈ buf, row.length = nz

/-- A plane is well-formed when its buffer has shape `(ny, nz)`, as
established by `RxPlane.init`. -/
def RxPlane.WF (p : RxPlane) : Prop :=
  bufShape p.pressurefield p.ny.toNat p.nz.toNat

/-- Per-transmitter contribution exactly as the specification states it, with
the symbolic constant `π`: `(t.amplitude / (2π·d)) · (cos(−k·d + t.phase) +
i·sin(−k·d + t.phase))`.  Used to compare the spec's formula against the
code, which divides by `2 * 3.14159` instead of `2π`. -/
noncomputable def specContribution (wavenumber : ℝ) (t : TxElement)
    (px py pz : ℝ) : ℂ :=
  let d := distanceTo px py pz t
  Complex.ofReal (t.amplitude / (2 * Real.pi * d)) *
    (Complex.ofReal (Real.cos (-wavenumber * d + t.phase)) +
      Complex.I * Complex.ofReal (Real.sin (-wavenumber * d + t.phase)))

/-- Per-transmitter contribution with the constant the code actually uses,
`2 * 3.14159`, in place of `2π`. -/
noncomputable def codeContribution (wavenumber : ℝ) (t : TxElement)
    (px py pz : ℝ) : ℂ :=
  let d := distanceTo px py pz t
  Complex.ofReal (t.amplitude / (2 * 3.14159 * d)) *
    (Complex.ofReal (Real.cos (-wavenumber * d + t.phase)) +
      Complex.I * Complex.ofReal (Real.sin (-wavenumber * d + t.phase)))

/-! Basic facts about `List.getD` access. -/

lemma getD_of_lt {α : Type} (l : List α) (i : ℕ) (d : α) (h : i < l.length) :
    l.getD i d = l[i] := by
  simp [List.getD_eq_getElem?_getD, List.getElem?_eq_getElem h]

lemma getD_of_le {α : Type} (l : List α) (i : ℕ) (d : α) (h : l.length ≤ i) :
    l.getD i d = d := by
  simp [List.getD_eq_getElem?_getD, List.getElem?_eq_none h]

lemma getD_replicate_self {α : Type} (n i : ℕ) (a : α) :
    (List.replicate n a).getD i a = a := by
  by_cases h : i < n
  · rw [getD_of_lt _ _ _ (by simpa using h)]
    simp
  · rw [getD_of_le _ _ _ (by simpa using Nat.le_of_not_lt h)]

/-! Facts about a single cell write. -/

lemma writeCell_length (buf : List (List ℂ)) (iy iz : ℕ) (v : ℂ) :
    (writeCell buf iy iz v).length = buf.length := by
  simp [writeCell]

lemma writeCell_row_ne (buf : List (List ℂ)) (iy iz : ℕ) (v : ℂ) (i : ℕ)
    (h : i ≠ iy) :
    (writeCell buf iy iz v).getD i [] = buf.getD i [] := by
  simp [writeCell, List.getD_eq_getElem?_getD, List.getElem?_set_ne (Ne.symm h)]

lemma writeCell_row_self (buf : List (List ℂ)) (iy iz : ℕ) (v : ℂ) :
    (writeCell buf iy iz v).getD iy [] =
      if iy < buf.length then (buf.getD iy []).set iz v else [] := by
  by_cases h : iy < buf.length
  · simp [writeCell, List.getD_eq_getElem?_getD, List.getElem?_set_self h, h]
  · have h' : buf.length ≤ iy := Nat.le_of_not_lt h
    rw [if_neg h]
    unfold writeCell
    rw [List.getD_eq_getElem?_getD, List.getElem?_eq_none (by simpa using h')]
    rfl

lemma writeCell_rowlen (buf : List (List ℂ)) (iy iz : ℕ) (v : ℂ) (i : ℕ) :
    ((writeCell buf iy iz v).getD i []).length = (buf.getD i []).length := by
  by_cases h : i = iy
  · subst h
    rw [writeCell_row_self]
    by_cases h2 : i < buf.length
    · simp [h2]
    · rw [if_neg h2, getD_of_le _ _ _ (Nat.le_of_not_lt h2)]
  · rw [writeCell_row_ne _ _ _ _ _ h]

lemma getCell_writeCell_ne (buf : List (List ℂ)) (iy iz : ℕ) (v : ℂ)
    (i j : ℕ) (h : i ≠ iy ∨ j ≠ iz) :
    getCell (writeCell buf iy iz v) i j = getCell buf i j := by
  unfold getCell
  by_cases hi : i = iy
  · subst hi
    have hj : j ≠ iz := h.resolve_left (by simp)
    rw [writeCell_row_self]
    by_cases h2 : i < buf.length
    · rw [if_pos h2, List.getD_eq_getElem?_getD,
        List.getElem?_set_ne (Ne.symm hj), ← List.getD_eq_getElem?_getD]
    · rw [if_neg h2, getD_of_le buf i [] (Nat.le_of_not_lt h2)]
  · rw [writeCell_row_ne _ _ _ _ _ hi]

lemma getCell_writeCell_self (buf : List (List ℂ)) (iy iz : ℕ) (v : ℂ)
    (hy : iy < buf.length) (hz : iz < (buf.getD iy []).length) :
    getCell (writeCell buf iy iz v) iy iz = v := by
  unfold getCell
  rw [writeCell_row_self, if_pos hy,
    getD_of_lt _ _ _ (by simpa using hz)]
  simp

/-! Facts about one column pass of the solver loop. -/

lemma writeColumn_length (v : ℕ → ℂ) (iz n : ℕ) (buf : List (List ℂ)) :
    (writeColumn v iz n buf).length = buf.length := by
  induction n with
  | zero => rfl
  | succ n ih => simp only [writeColumn]; rw [writeCell_length, ih]

lemma writeColumn_rowlen (v : ℕ → ℂ) (iz n : ℕ) (buf : List (List ℂ)) (i : ℕ) :
    ((writeColumn v iz n buf).getD i []).length = (buf.getD i []).length := by
  induction n with
  | zero => rfl
  | succ n ih => simp only [writeColumn]; rw [writeCell_rowlen, ih]

lemma getCell_writeColumn_ne (v : ℕ → ℂ) (iz n : ℕ) (buf : List (List ℂ))
    (i j : ℕ) (h : j ≠ iz) :
    getCell (writeColumn v iz n buf) i j = getCell buf i j := by
  induction n with
  | zero => rfl
  | succ n ih =>
    simp only [writeColumn]
    rw [getCell_writeCell_ne _ _ _ _ _ _ (Or.inr h), ih]

lemma getCell_writeColumn_ge (v : ℕ → ℂ) (iz n : ℕ) (buf : List (List ℂ))
    (i j : ℕ) (h : n ≤ i) :
    getCell (writeColumn v iz n buf) i j = getCell buf i j := by
  induction n with
  | zero => rfl
  | succ n ih =>
    simp only [writeColumn]
    rw [getCell_writeCell_ne _ _ _ _ _ _ (Or.inl (by omega)), ih (by omega)]

lemma getCell_writeColumn_self (v : ℕ → ℂ) (iz n : ℕ) (buf : List (List ℂ))
    (i : ℕ) (hi : i < n) (hlen : i < buf.length)
    (hrow : iz < (buf.getD i []).length) :
    getCell (writeColumn v iz n buf) i iz = v i := by
  induction n with
  | zero => omega
  | succ n ih =>
    simp only [writeColumn]
    by_cases hin : i = n
    · subst hin
      apply getCell_writeCell_self
      · rw [writeColumn_length]; exact hlen
      · rw [writeColumn_rowlen]; exact hrow
    · rw [getCell_writeCell_ne _ _ _ _ _ _ (Or.inl hin)]
      exact ih (by omega)

/-! Facts about the full grid pass of the solver loop. -/

lemma writeGrid_length (v : ℕ → ℕ → ℂ) (ny n : ℕ) (buf : List (List ℂ)) :
    (writeGrid v ny n buf).length = buf.length := by
  induction n with
  | zero => rfl
  | succ n ih => simp only [writeGrid]; rw [writeColumn_length, ih]

lemma writeGrid_rowlen (v : ℕ → ℕ → ℂ) (ny n : ℕ) (buf : List (List ℂ))
    (i : ℕ) :
    ((writeGrid v ny n buf).getD i []).length = (buf.getD i []).length := by
  induction n with
  | zero => rfl
  | succ n ih => simp only [writeGrid]; rw [writeColumn_rowlen, ih]

lemma getCell_writeGrid (v : ℕ → ℕ → ℂ) (ny n : ℕ) (buf : List (List ℂ))
    (i j : ℕ) (hlen : i < buf.length) (hrow : j < (buf.getD i []).length) :
    getCell (writeGrid v ny n buf) i j =
      if i < ny ∧ j < n then v i j else getCell buf i j := by
  induction n with
  | zero => simp [writeGrid]
  | succ n ih =>
    simp only [writeGrid]
    by_cases hj : j = n
    · subst hj
      by_cases hiny : i < ny
      · rw [getCell_writeColumn_self _ _ _ _ _ hiny
          (by rw [writeGrid_length]; exact hlen)
          (by rw [writeGrid_rowlen]; exact hrow)]
        simp [hiny]
      · rw [getCell_writeColumn_ge _ _ _ _ _ _ (Nat.le_of_not_lt hiny), ih]
        simp [hiny]
    · rw [getCell_writeColumn_ne _ _ _ _ _ _ hj, ih]
      have hiff : (i < ny ∧ j < n) ↔ (i < ny ∧ j < n + 1) := by omega
      simp only [hiff]

/-- Buffers are equal when lengths, row lengths and all in-range cells agree. -/
lemma buf_ext {b1 b2 : List (List ℂ)} (hlen : b1.length = b2.length)
    (hrow : ∀ i, i < b1.length → (b1.getD i []).length = (b2.getD i []).length)
    (hcell : ∀ i j, i < b1.length → j < (b1.getD i []).length →
      getCell b1 i j = getCell b2 i j) :
    b1 = b2 := by
  apply List.ext_getElem hlen
  intro i h1 h2
  apply List.ext_getElem
  · have h := hrow i h1
    rwa [getD_of_lt _ _ _ h1, getD_of_lt _ _ _ h2] at h
  · intro j hj1 hj2
    have h := hcell i j h1 (by rwa [getD_of_lt _ _ _ h1])
    unfold getCell at h
    rwa [getD_of_lt _ _ _ h1, getD_of_lt _ _ _ h2,
      getD_of_lt _ _ _ hj1, getD_of_lt _ _ _ hj2] at h

/-! Characterization of the solver at the level of cells and shapes. -/

lemma beamsimField_eq (k : ℝ) (el : List TxElement) (p : RxPlane) :
    beamsimField k el p =
      writeGrid (fun iy iz => cellValue k el p iy iz)
        p.ny.toNat p.nz.toNat p.pressurefield := rfl

lemma WF_rowlen {p : RxPlane} (h : p.WF) (i : ℕ)
    (hi : i < p.pressurefield.length) :
    (p.pressurefield.getD i []).length = p.nz.toNat := by
  rw [getD_of_lt _ _ _ hi]
  exact h.2 _ (List.getElem_mem hi)

lemma beamsim_getCell (k : ℝ) (el : List TxElement) (p : RxPlane) (hWF : p.WF)
    (iy iz : ℕ) (hy : iy < p.ny.toNat) (hz : iz < p.nz.toNat) :
    getCell (beamsim k el p).pressurefield iy iz = cellValue k el p iy iz := by
  show getCell (beamsimField k el p) iy iz = _
  have hlen : iy < p.pressurefield.length := by rw [hWF.1]; exact hy
  have hrow : iz < (p.pressurefield.getD iy []).length := by
    rw [WF_rowlen hWF iy hlen]; exact hz
  rw [beamsimField_eq, getCell_writeGrid _ _ _ _ _ _ hlen hrow]
  simp [hy, hz]

lemma beamsim_length (k : ℝ) (el : List TxElement) (p : RxPlane) :
    (beamsim k el p).pressurefield.length = p.pressurefield.length := by
  show (beamsimField k el p).length = _
  rw [beamsimField_eq, writeGrid_length]

lemma beamsim_rowlen (k : ℝ) (el : List TxElement) (p : RxPlane) (i : ℕ) :
    ((beamsim k el p).pressurefield.getD i []).length =
      (p.pressurefield.getD i []).length := by
  show ((beamsimField k el p).getD i []).length = _
  rw [beamsimField_eq, writeGrid_rowlen]

lemma beamsim_shape (k : ℝ) (el : List TxElement) (p : RxPlane) (hWF : p.WF) :
    bufShape (beamsim k el p).pressurefield p.ny.toNat p.nz.toNat := by
  constructor
  · rw [beamsim_length, hWF.1]
  · intro row hrow
    obtain ⟨i, hi, hrow⟩ := List.getElem_of_mem hrow
    have hi' : i < p.pressurefield.length := by rwa [beamsim_length] at hi
    have h := beamsim_rowlen k el p i
    rw [getD_of_lt _ _ _ hi, WF_rowlen hWF i hi'] at h
    rw [← hrow, h]

/-- Repeating the whole grid pass with the same cell values changes nothing. -/
lemma writeGrid_idem (v : ℕ → ℕ → ℂ) (ny n : ℕ) (buf : List (List ℂ)) :
    writeGrid v ny n (writeGrid v ny n buf) = writeGrid v ny n buf := by
  apply buf_ext
  · rw [writeGrid_length, writeGrid_length]
  · intro i _
    simp only [writeGrid_rowlen]
  · intro i j hi hj
    have hi' : i < buf.length := by
      rwa [writeGrid_length, writeGrid_length] at hi
    have hj' : j < (buf.getD i []).length := by
      rwa [writeGrid_rowlen, writeGrid_rowlen] at hj
    rw [getCell_writeGrid _ _ _ _ _ _ (by rwa [writeGrid_length])
        (by rwa [writeGrid_rowlen]),
      getCell_writeGrid _ _ _ _ _ _ hi' hj']
    by_cases hc : i < ny ∧ j < n <;> simp [hc]

/-! The accumulator loop as a sum over the transmitter list. -/

/-- Real part of one transmitter's contribution, as the code computes it. -/
noncomputable def reContribution (wavenumber px py pz : ℝ) (e : TxElement) : ℝ :=
  Real.cos (-wavenumber * distanceTo px py pz e + e.phase) *
    (e.amplitude / (2 * 3.14159 * distanceTo px py pz e))

/-- Imaginary part of one transmitter's contribution, as the code computes it. -/
noncomputable def imContribution (wavenumber px py pz : ℝ) (e : TxElement) : ℝ :=
  Real.sin (-wavenumber * distanceTo px py pz e + e.phase) *
    (e.amplitude / (2 * 3.14159 * distanceTo px py pz e))

lemma accumulate_eq (wavenumber px py pz : ℝ) (el : List TxElement) :
    ∀ a b : ℝ,
      accumulate wavenumber px py pz el (a, b) =
        (a + (el.map (reContribution wavenumber px py pz)).sum,
          b + (el.map (imContribution wavenumber px py pz)).sum) := by
  induction el with
  | nil => intro a b; simp [accumulate]
  | cons e rest ih =>
    intro a b
    simp only [accumulate, List.map_cons, List.sum_cons]
    rw [ih]
    refine Prod.ext ?_ ?_
    · show a + Real.cos _ * _ + _ = a + (reContribution wavenumber px py pz e + _)
      unfold reContribution
      ring
    · show b + Real.sin _ * _ + _ = b + (imContribution wavenumber px py pz e + _)
      unfold imContribution
      ring

lemma sum_codeContribution (wavenumber px py pz : ℝ) (el : List TxElement) :
    (el.map (fun t => codeContribution wavenumber t px py pz)).sum =
      Complex.ofReal ((el.map (reContribution wavenumber px py pz)).sum) +
        Complex.I *
          Complex.ofReal ((el.map (imContribution wavenumber px py pz)).sum) := by
  induction el with
  | nil => simp
  | cons e rest ih =>
    simp only [List.map_cons, List.sum_cons, ih]
    unfold codeContribution reContribution imContribution
    push_cast
    ring

/-- The pressure at a sample point is the sum of per-transmitter
contributions. -/
lemma pressureAt_eq_sum (wavenumber : ℝ) (el : List TxElement) (px py pz : ℝ) :
    pressureAt wavenumber el px py pz =
      (el.map (fun t => codeContribution wavenumber t px py pz)).sum := by
  unfold pressureAt
  rw [accumulate_eq, sum_codeContribution]
  simp

/-- The pressure at a sample point is invariant under permuting the
transmitter list. -/
lemma pressureAt_perm (wavenumber px py pz : ℝ) {el1 el2 : List TxElement}
    (h : el1.Perm el2) :
    pressureAt wavenumber el1 px py pz = pressureAt wavenumber el2 px py pz := by
  rw [pressureAt_eq_sum, pressureAt_eq_sum]
  exact List.Perm.sum_eq (h.map _)

/-! The zero buffer. -/

lemma zerosField_shape (ny nz : ℤ) :
    bufShape (zerosField ny nz) ny.toNat nz.toNat := by
  constructor
  · simp [zerosField]
  · intro row hrow
    rw [List.eq_of_mem_replicate hrow]
    simp

lemma getD_replicate {α : Type} {n i : ℕ} (a d : α) (h : i < n) :
    (List.replicate n a).getD i d = a := by
  have hl : i < (List.replicate n a).length := by simpa using h
  rw [getD_of_lt _ _ _ hl]
  simp

lemma getCell_zerosField (ny nz : ℤ) (iy iz : ℕ) :
    getCell (zerosField ny nz) iy iz = 0 := by
  unfold getCell zerosField
  by_cases hy : iy < ny.toNat
  · rw [getD_replicate _ _ hy, getD_replicate_self]
  · have h : (List.replicate ny.toNat (List.replicate nz.toNat (0 : ℂ))).getD
        iy [] = [] :=
      getD_of_le _ _ _ (by simpa using Nat.le_of_not_lt hy)
    rw [h]
    rfl

/-! Concrete instances used by witnesses and the counterexample. -/

/-- A minimal valid plane: a single sample point at `(1, 0, 0)`. -/
noncomputable def plane1 : RxPlane := ⟨1, 0, 0, 1, 1, 1, 1, 1, 1, zerosField 1 1⟩

/-- A transmitter at the origin with amplitude 1 and phase 0. -/
def tx0 : TxElement := ⟨0, 0, 0, 1, 0⟩

/-- A second transmitter, also avoiding the sample point of `plane1`. -/
def tx1 : TxElement := ⟨0, 0, 2, 1, 0⟩

/-- A plane like `plane1` but with stale nonzero buffer contents. -/
def plane2 : RxPlane := ⟨1, 0, 0, 1, 1, 1, 1, 1, 1, [[5]]⟩

lemma plane1_WF : plane1.WF := by
  show bufShape (zerosField 1 1) _ _
  have h := zerosField_shape 1 1
  simpa [plane1] using h

lemma plane2_WF : plane2.WF := by
  constructor
  · simp [plane2]
  · intro row hrow
    simp [plane2] at hrow
    simp [plane2, hrow]

/-! Evaluation on the concrete instances. -/

lemma plane1_ny : plane1.ny.toNat = 1 := rfl

lemma plane1_nz : plane1.nz.toNat = 1 := rfl

lemma plane1_cell (k : ℝ) (el : List TxElement) :
    getCell (beamsim k el plane1).pressurefield 0 0 = pressureAt k el 1 0 0 := by
  rw [beamsim_getCell k el plane1 plane1_WF 0 0 (by norm_num [plane1_ny])
    (by norm_num [plane1_nz])]
  unfold cellValue
  norm_num [plane1]

lemma tx0_distance : distanceTo 1 0 0 tx0 = 1 := by
  unfold distanceTo tx0
  norm_num [Real.sqrt_one]

lemma tx0_sep : distanceTo 1 0 0 tx0 ≠ 0 := by
  rw [tx0_distance]
  norm_num

lemma tx1_sep : distanceTo 1 0 0 tx1 ≠ 0 := by
  unfold distanceTo tx1
  rw [Real.sqrt_ne_zero']
  norm_num

/-- On `plane1` the only sample point is `(1, 0, 0)`, so separation from that
point gives separation from every sample point. -/
lemma plane1_sep (t : TxElement) (h : distanceTo 1 0 0 t ≠ 0) :
    ∀ iy iz : ℕ, iy < plane1.ny.toNat → iz < plane1.nz.toNat →
      distanceTo plane1.x0 (plane1.y0 + (iy : ℝ) * plane1.dy)
        (plane1.z0 + (iz : ℝ) * plane1.dz) t ≠ 0 := by
  intro iy iz hy hz
  rw [plane1_ny] at hy
  rw [plane1_nz] at hz
  have hy0 : iy = 0 := by omega
  have hz0 : iz = 0 := by omega
  subst hy0
  subst hz0
  simpa [plane1] using h

lemma pressureAt_tx0 :
    pressureAt 0 [tx0] 1 0 0 = Complex.ofReal (1 / (2 * 3.14159)) := by
  rw [pressureAt_eq_sum]
  simp only [List.map_cons, List.map_nil, List.sum_cons, List.sum_nil, add_zero]
  unfold codeContribution
  rw [tx0_distance]
  show Complex.ofReal (tx0.amplitude / (2 * 3.14159 * 1)) *
      (Complex.ofReal (Real.cos (-0 * 1 + tx0.phase)) +
        Complex.I * Complex.ofReal (Real.sin (-0 * 1 + tx0.phase))) = _
  have h1 : -0 * 1 + tx0.phase = 0 := by
    show -0 * 1 + 0 = (0 : ℝ)
    ring
  rw [h1, Real.cos_zero, Real.sin_zero]
  show Complex.ofReal ((1 : ℝ) / (2 * 3.14159 * 1)) * _ = _
  norm_num

lemma specContribution_tx0 :
    specContribution 0 tx0 1 0 0 = Complex.ofReal (1 / (2 * Real.pi)) := by
  unfold specContribution
  rw [tx0_distance]
  show Complex.ofReal (tx0.amplitude / (2 * Real.pi * 1)) *
      (Complex.ofReal (Real.cos (-0 * 1 + tx0.phase)) +
        Complex.I * Complex.ofReal (Real.sin (-0 * 1 + tx0.phase))) = _
  have h1 : -0 * 1 + tx0.phase = 0 := by
    show -0 * 1 + 0 = (0 : ℝ)
    ring
  rw [h1, Real.cos_zero, Real.sin_zero]
  show Complex.ofReal ((1 : ℝ) / (2 * Real.pi * 1)) * _ = _
  rw [mul_one]
  norm_num

/-- The valid plane produced by `RxPlane.init` on the witness arguments. -/
noncomputable def q0 : RxPlane := ⟨0, 0, 0, 0, 0, 0, 1, 1, 1, zerosField 1 1⟩

lemma init_q0 : RxPlane.init 0 0 0 0 0 0 1 1 1 = Except.ok q0 := by
  unfold RxPlane.init q0
  rw [if_neg (by omega), if_neg (by omega), if_neg (by omega)]

/-! Claim theorems. -/

/-- C1, counterexample: the claim's cell formula divides by `2π`, but the code
divides by `2 * 3.14159` (source line 100).  With one transmitter at the
origin, amplitude 1, phase 0, wavenumber 0, and the single sample point of
`plane1` at distance 1, the buffer cell differs from the claimed sum of
`specContribution` terms. -/
theorem C1_counterexample :
    getCell (beamsim 0 [tx0] plane1).pressurefield 0 0 ≠
      (([tx0] : List TxElement).map (fun t =>
        specContribution 0 t plane1.x0 (plane1.y0 + (0 : ℝ) * plane1.dy)
          (plane1.z0 + (0 : ℝ) * plane1.dz))).sum := by
  intro hEq
  rw [plane1_cell, pressureAt_tx0] at hEq
  have hspec : (([tx0] : List TxElement).map (fun t =>
      specContribution 0 t plane1.x0 (plane1.y0 + (0 : ℝ) * plane1.dy)
        (plane1.z0 + (0 : ℝ) * plane1.dz))).sum =
      Complex.ofReal (1 / (2 * Real.pi)) := by
    simp only [List.map_cons, List.map_nil, List.sum_cons, List.sum_nil,
      add_zero]
    have harg1 : plane1.x0 = (1 : ℝ) := rfl
    have harg2 : plane1.y0 + (0 : ℝ) * plane1.dy = 0 := by
      norm_num [plane1]
    have harg3 : plane1.z0 + (0 : ℝ) * plane1.dz = 0 := by
      norm_num [plane1]
    rw [harg1, harg2, harg3, specContribution_tx0]
  rw [hspec] at hEq
  have h := Complex.ofReal_inj.mp hEq
  have hπ : (3.14159 : ℝ) < Real.pi :=
    lt_trans (by norm_num) Real.pi_gt_d6
  have hπ0 : (0 : ℝ) < Real.pi := Real.pi_pos
  rw [div_eq_div_iff (by norm_num) (by positivity)] at h
  nlinarith

/-- C1, amended: for every grid with `nx = 1` and transmitters avoiding the
sample points, after `beamsim` the cell `[iy][iz]` equals the sum over
transmitters of `(t.amplitude / (2·3.14159·d)) · (cos(−k·d + t.phase) +
i·sin(−k·d + t.phase))` with `d` the distance from the sample point
`(x0, y0 + iy·dy, z0 + iz·dz)` — the code's constant `2 * 3.14159` replacing
the claim's `2π`. -/
theorem C1_cell_formula (k : ℝ) (el : List TxElement) (p : RxPlane)
    (hnx : p.nx = 1) (hWF : p.WF)
    (hsep : ∀ t ∈ el, ∀ iy iz : ℕ, iy < p.ny.toNat → iz < p.nz.toNat →
      distanceTo p.x0 (p.y0 + (iy : ℝ) * p.dy) (p.z0 + (iz : ℝ) * p.dz) t ≠ 0)
    (iy iz : ℕ) (hy : iy < p.ny.toNat) (hz : iz < p.nz.toNat) :
    getCell (beamsim k el p).pressurefield iy iz =
      (el.map (fun t =>
        codeContribution k t p.x0 (p.y0 + (iy : ℝ) * p.dy)
          (p.z0 + (iz : ℝ) * p.dz))).sum := by
  rw [beamsim_getCell k el p hWF iy iz hy hz]
  unfold cellValue
  have hx : p.x0 + 0 * p.dx = p.x0 := by ring
  rw [hx, pressureAt_eq_sum]

/-- C1 witness: the amended formula instantiated on `plane1` with the single
origin transmitter `tx0` and wavenumber 0. -/
theorem C1_witness :
    getCell (beamsim 0 [tx0] plane1).pressurefield 0 0 =
      (([tx0] : List TxElement).map (fun t =>
        codeContribution 0 t plane1.x0 (plane1.y0 + ((0 : ℕ) : ℝ) * plane1.dy)
          (plane1.z0 + ((0 : ℕ) : ℝ) * plane1.dz))).sum :=
  C1_cell_formula 0 [tx0] plane1 rfl plane1_WF
    (by
      intro t ht iy iz hy hz
      simp only [List.mem_singleton] at ht
      subst ht
      exact plane1_sep tx0 tx0_sep iy iz hy hz)
    0 0 (by norm_num [plane1_ny]) (by norm_num [plane1_nz])

/-- C2: `RxPlane.init` fails exactly when `nx ≠ 1` or `ny`/`nz` fall outside
`[1, 4096]`, the error message names the offending parameter, and the
boundaries behave as claimed: `nx = 2` fails, `ny = 0`/`4097` fail,
`ny = 4096` succeeds, and the same for `nz`. -/
theorem C2_init_validation (x0 y0 z0 dx dy dz : ℝ) (nx ny nz : ℤ) :
    ((∃ msg, RxPlane.init x0 y0 z0 dx dy dz nx ny nz = Except.error msg) ↔
      nx ≠ 1 ∨ ny < 1 ∨ 4096 < ny ∨ nz < 1 ∨ 4096 < nz) ∧
    (nx ≠ 1 →
      RxPlane.init x0 y0 z0 dx dy dz nx ny nz =
        Except.error "nx must be 1: ") ∧
    (nx = 1 → (ny < 1 ∨ 4096 < ny) →
      RxPlane.init x0 y0 z0 dx dy dz nx ny nz =
        Except.error "ny must have a sensible value between 1 an 4096") ∧
    (nx = 1 → 1 ≤ ny → ny ≤ 4096 → (nz < 1 ∨ 4096 < nz) →
      RxPlane.init x0 y0 z0 dx dy dz nx ny nz =
        Except.error "nz must have a sensible value between 1 and 4096") ∧
    (∃ msg, RxPlane.init x0 y0 z0 dx dy dz 2 10 10 = Except.error msg) ∧
    (∃ msg, RxPlane.init x0 y0 z0 dx dy dz 1 0 10 = Except.error msg) ∧
    (∃ q, RxPlane.init x0 y0 z0 dx dy dz 1 4096 10 = Except.ok q) ∧
    (∃ msg, RxPlane.init x0 y0 z0 dx dy dz 1 4097 10 = Except.error msg) ∧
    (∃ msg, RxPlane.init x0 y0 z0 dx dy dz 1 10 0 = Except.error msg) ∧
    (∃ q, RxPlane.init x0 y0 z0 dx dy dz 1 10 4096 = Except.ok q) ∧
    (∃ msg, RxPlane.init x0 y0 z0 dx dy dz 1 10 4097 = Except.error msg) := by
  refine ⟨⟨?_, ?_⟩, ?_, ?_, ?_, ?_, ?_, ?_, ?_, ?_, ?_, ?_⟩
  · rintro ⟨msg, hmsg⟩
    by_contra hcon
    push_neg at hcon
    obtain ⟨h1, h2, h3, h4, h5⟩ := hcon
    unfold RxPlane.init at hmsg
    rw [if_neg (by omega), if_neg (by omega), if_neg (by omega)] at hmsg
    exact Except.noConfusion hmsg
  · intro hbad
    unfold RxPlane.init
    split_ifs with h1 h2 h3
    · exact ⟨_, rfl⟩
    · exact ⟨_, rfl⟩
    · exact ⟨_, rfl⟩
    · omega
  · intro h1
    unfold RxPlane.init
    rw [if_pos h1]
  · intro h1 h2
    unfold RxPlane.init
    rw [if_neg (by omega), if_pos (by omega)]
  · intro h1 h2 h3 h4
    unfold RxPlane.init
    rw [if_neg (by omega), if_neg (by omega), if_pos (by omega)]
  · unfold RxPlane.init
    rw [if_pos (by omega)]
    exact ⟨_, rfl⟩
  · unfold RxPlane.init
    rw [if_neg (by omega), if_pos (by omega)]
    exact ⟨_, rfl⟩
  · unfold RxPlane.init
    rw [if_neg (by omega), if_neg (by omega), if_neg (by omega)]
    exact ⟨_, rfl⟩
  · unfold RxPlane.init
    rw [if_neg (by omega), if_pos (by omega)]
    exact ⟨_, rfl⟩
  · unfold RxPlane.init
    rw [if_neg (by omega), if_neg (by omega), if_pos (by omega)]
    exact ⟨_, rfl⟩
  · unfold RxPlane.init
    rw [if_neg (by omega), if_neg (by omega), if_neg (by omega)]
    exact ⟨_, rfl⟩
  · unfold RxPlane.init
    rw [if_neg (by omega), if_neg (by omega), if_pos (by omega)]
    exact ⟨_, rfl⟩

/-- C2 witness: constructing with `nx = 2` fails with the `nx` message. -/
theorem C2_witness :
    RxPlane.init 0 0 0 0 0 0 2 10 10 = Except.error "nx must be 1: " :=
  (C2_init_validation 0 0 0 0 0 0 2 10 10).2.1 (by decide)

/-- C3: when validation fails, `RxPlane.init` never returns a plane — no
partially constructed grid and no buffer are produced. -/
theorem C3_no_partial_object (x0 y0 z0 dx dy dz : ℝ) (nx ny nz : ℤ)
    (hbad : nx ≠ 1 ∨ ny < 1 ∨ 4096 < ny ∨ nz < 1 ∨ 4096 < nz) :
    ∀ q : RxPlane, RxPlane.init x0 y0 z0 dx dy dz nx ny nz ≠ Except.ok q := by
  intro q hq
  unfold RxPlane.init at hq
  split_ifs at hq with h1 h2 h3
  omega

/-- C3 witness: with `nx = 2` no plane value is produced. -/
theorem C3_witness :
    RxPlane.init 0 0 0 0 0 0 2 10 10 ≠
      Except.ok ⟨0, 0, 0, 0, 0, 0, 2, 10, 10, zerosField 10 10⟩ :=
  C3_no_partial_object 0 0 0 0 0 0 2 10 10 (Or.inl (by decide)) _

/-- C4: `beamsim` is idempotent — running it twice with unchanged inputs
leaves the buffer identical to the buffer after a single run, because every
cell is overwritten from freshly zeroed accumulators. -/
theorem C4_idempotent (k : ℝ) (el : List TxElement) (p : RxPlane) :
    (beamsim k el (beamsim k el p)).pressurefield =
      (beamsim k el p).pressurefield := by
  show writeGrid
      (fun iy iz => pressureAt k el (p.x0 + 0 * p.dx)
        (p.y0 + (iy : ℝ) * p.dy) (p.z0 + (iz : ℝ) * p.dz))
      p.ny.toNat p.nz.toNat
      (writeGrid
        (fun iy iz => pressureAt k el (p.x0 + 0 * p.dx)
          (p.y0 + (iy : ℝ) * p.dy) (p.z0 + (iz : ℝ) * p.dz))
        p.ny.toNat p.nz.toNat p.pressurefield) =
    writeGrid
      (fun iy iz => pressureAt k el (p.x0 + 0 * p.dx)
        (p.y0 + (iy : ℝ) * p.dy) (p.z0 + (iz : ℝ) * p.dz))
      p.ny.toNat p.nz.toNat p.pressurefield
  exact writeGrid_idem _ _ _ _

/-- C5: superposition — the field of two transmitters is, cell by cell, the
sum of the fields of each transmitter alone (same grid and wavenumber). -/
theorem C5_superposition (k : ℝ) (a b : TxElement) (p : RxPlane) (hWF : p.WF)
    (ha : ∀ iy iz : ℕ, iy < p.ny.toNat → iz < p.nz.toNat →
      distanceTo p.x0 (p.y0 + (iy : ℝ) * p.dy) (p.z0 + (iz : ℝ) * p.dz) a ≠ 0)
    (hb : ∀ iy iz : ℕ, iy < p.ny.toNat → iz < p.nz.toNat →
      distanceTo p.x0 (p.y0 + (iy : ℝ) * p.dy) (p.z0 + (iz : ℝ) * p.dz) b ≠ 0)
    (iy iz : ℕ) (hy : iy < p.ny.toNat) (hz : iz < p.nz.toNat) :
    getCell (beamsim k [a, b] p).pressurefield iy iz =
      getCell (beamsim k [a] p).pressurefield iy iz +
        getCell (beamsim k [b] p).pressurefield iy iz := by
  rw [beamsim_getCell k [a, b] p hWF iy iz hy hz,
    beamsim_getCell k [a] p hWF iy iz hy hz,
    beamsim_getCell k [b] p hWF iy iz hy hz]
  unfold cellValue
  rw [pressureAt_eq_sum, pressureAt_eq_sum, pressureAt_eq_sum]
  simp

/-- C5 witness: two origin-separated transmitters on `plane1`. -/
theorem C5_witness :
    getCell (beamsim 1 [tx0, tx1] plane1).pressurefield 0 0 =
      getCell (beamsim 1 [tx0] plane1).pressurefield 0 0 +
        getCell (beamsim 1 [tx1] plane1).pressurefield 0 0 :=
  C5_superposition 1 tx0 tx1 plane1 plane1_WF
    (plane1_sep tx0 tx0_sep) (plane1_sep tx1 tx1_sep)
    0 0 (by norm_num [plane1_ny]) (by norm_num [plane1_nz])

/-- C6: order invariance — permuting the transmitter list leaves the buffer
produced by `beamsim` unchanged. -/
theorem C6_order_invariant (k : ℝ) (el1 el2 : List TxElement) (p : RxPlane)
    (h : el1.Perm el2) :
    (beamsim k el1 p).pressurefield = (beamsim k el2 p).pressurefield := by
  show writeGrid
      (fun iy iz => pressureAt k el1 (p.x0 + 0 * p.dx)
        (p.y0 + (iy : ℝ) * p.dy) (p.z0 + (iz : ℝ) * p.dz))
      p.ny.toNat p.nz.toNat p.pressurefield =
    writeGrid
      (fun iy iz => pressureAt k el2 (p.x0 + 0 * p.dx)
        (p.y0 + (iy : ℝ) * p.dy) (p.z0 + (iz : ℝ) * p.dz))
      p.ny.toNat p.nz.toNat p.pressurefield
  have hv : (fun iy iz : ℕ => pressureAt k el1 (p.x0 + 0 * p.dx)
        (p.y0 + (iy : ℝ) * p.dy) (p.z0 + (iz : ℝ) * p.dz)) =
      (fun iy iz : ℕ => pressureAt k el2 (p.x0 + 0 * p.dx)
        (p.y0 + (iy : ℝ) * p.dy) (p.z0 + (iz : ℝ) * p.dz)) := by
    funext iy iz
    exact pressureAt_perm _ _ _ _ h
  rw [hv]

/-- C6 witness: swapping two transmitters on `plane1`. -/
theorem C6_witness :
    (beamsim 1 [tx0, tx1] plane1).pressurefield =
      (beamsim 1 [tx1, tx0] plane1).pressurefield :=
  C6_order_invariant 1 [tx0, tx1] [tx1, tx0] plane1 (List.Perm.swap _ _ _)

/-- C7: shape preservation — for a validly constructed grid, after `beamsim`
the buffer has exactly `ny` rows of `nz` columns, for any transmitter list. -/
theorem C7_shape (k : ℝ) (el : List TxElement) (p : RxPlane) (hWF : p.WF) :
    bufShape (beamsim k el p).pressurefield p.ny.toNat p.nz.toNat :=
  beamsim_shape k el p hWF

/-- C7 witness: shape after solving `plane1` with one transmitter. -/
theorem C7_witness :
    bufShape (beamsim 1 [tx0] plane1).pressurefield
      plane1.ny.toNat plane1.nz.toNat :=
  C7_shape 1 [tx0] plane1 plane1_WF

/-- C8: frame condition — `beamsim` leaves every geometric field of the grid
unchanged; only the pressure buffer is replaced (the environment wavenumber
and the transmitter list are read-only inputs in this embedding). -/
theorem C8_frame (k : ℝ) (el : List TxElement) (p : RxPlane) :
    (beamsim k el p).x0 = p.x0 ∧ (beamsim k el p).y0 = p.y0 ∧
    (beamsim k el p).z0 = p.z0 ∧ (beamsim k el p).dx = p.dx ∧
    (beamsim k el p).dy = p.dy ∧ (beamsim k el p).dz = p.dz ∧
    (beamsim k el p).nx = p.nx ∧ (beamsim k el p).ny = p.ny ∧
    (beamsim k el p).nz = p.nz :=
  ⟨rfl, rfl, rfl, rfl, rfl, rfl, rfl, rfl, rfl⟩

/-- C9: for every validly constructed grid, the reset operation re-zeroes the
buffer keeping shape `(ny, nz)` with every cell complex zero, and the same
holds immediately after construction. -/
theorem C9_reset (x0 y0 z0 dx dy dz : ℝ) (nx ny nz : ℤ) (q : RxPlane)
    (h : RxPlane.init x0 y0 z0 dx dy dz nx ny nz = Except.ok q) :
    (bufShape q.clear_pressurefield.pressurefield q.ny.toNat q.nz.toNat ∧
      ∀ iy iz : ℕ, getCell q.clear_pressurefield.pressurefield iy iz = 0) ∧
    bufShape q.pressurefield q.ny.toNat q.nz.toNat ∧
    ∀ iy iz : ℕ, getCell q.pressurefield iy iz = 0 := by
  refine ⟨⟨zerosField_shape q.ny q.nz,
    fun iy iz => getCell_zerosField q.ny q.nz iy iz⟩, ?_⟩
  unfold RxPlane.init at h
  split_ifs at h with h1 h2 h3
  injection h with h'
  subst h'
  exact ⟨zerosField_shape ny nz, fun iy iz => getCell_zerosField ny nz iy iz⟩

/-- C9 witness: the plane constructed by `init` on concrete arguments has the
zero buffer, before and after reset. -/
theorem C9_witness :
    getCell q0.clear_pressurefield.pressurefield 0 0 = 0 ∧
    bufShape q0.pressurefield q0.ny.toNat q0.nz.toNat ∧
    getCell q0.pressurefield 0 0 = 0 := by
  have h := C9_reset 0 0 0 0 0 0 1 1 1 q0 init_q0
  exact ⟨h.1.2 0 0, h.2.1, h.2.2 0 0⟩

/-- C10: with an empty transmitter list, `beamsim` writes complex zero into
every in-range buffer cell, regardless of the buffer's prior contents. -/
theorem C10_empty_writes_zero (k : ℝ) (p : RxPlane) (hWF : p.WF) (iy iz : ℕ)
    (hy : iy < p.ny.toNat) (hz : iz < p.nz.toNat) :
    getCell (beamsim k [] p).pressurefield iy iz = 0 := by
  rw [beamsim_getCell k [] p hWF iy iz hy hz]
  unfold cellValue pressureAt
  simp [accumulate]

/-- C10 witness: a plane whose stale buffer holds `5` is zeroed by a solve
with no transmitters. -/
theorem C10_witness : getCell (beamsim 1 [] plane2).pressurefield 0 0 = 0 :=
  C10_empty_writes_zero 1 plane2 plane2_WF 0 0 (by norm_num [plane2])
    (by norm_num [plane2])

end CueBeam
